import Mathlib

/-!
Verification of the browser-automation agent (background agent loop,
content-script perceiver/executor) against its specification.

The JavaScript source is shallowly embedded:
* JSON values exchanged with the model and the content script are `JValue`.
* The live document is a flat array of element nodes in document (preorder)
  order, with parent pointers; platform-computed data (computed style,
  bounding rects, `innerText`) is stored on the node.
* The background service worker's interactions with the platform
  (storage, tabs, fetch, message round-trips) are an explicit environment
  (`Env`); the agent loop itself is a pure function over it that returns
  the final run state together with the ordered trace of log lines,
  status events and dispatched actions.
-/

set_option maxRecDepth 4000

namespace Figure

/-- A JSON/JavaScript value, as produced by `JSON.parse` and passed between
the background worker, the model and the content script. -/
inductive JValue where
  | null : JValue
  | bool (b : Bool) : JValue
  | num (q : ℚ) : JValue
  | str (s : String) : JValue
  | arr (items : List JValue) : JValue
  | obj (fields : List (String × JValue)) : JValue

/-- Property lookup `v[k]`: `none` models JavaScript `undefined`
(non-object receiver or missing key). -/
def jget (v : JValue) (k : String) : Option JValue :=
  match v with
  | .obj fields => (fields.find? (fun p => p.1 = k)).map (·.2)
  | _ => none

/-- JavaScript truthiness of a value. -/
def jsTruthy (v : JValue) : Bool :=
  match v with
  | .null => false
  | .bool b => b
  | .num q => q ≠ 0
  | .str s => s ≠ ""
  | .arr _ => true
  | .obj _ => true

/-- Truthiness of a possibly-`undefined` value. -/
def jsTruthyO (v : Option JValue) : Bool :=
  match v with
  | none => false
  | some w => jsTruthy w

/-- Whether a possibly-`undefined` value is nullish (`undefined` or `null`),
the test performed by the `??` operator. -/
def jsNullishO (v : Option JValue) : Bool :=
  match v with
  | none => true
  | some .null => true
  | _ => false

/-- `a ?? b` on possibly-`undefined` values. -/
def jsCoalesce (a b : Option JValue) : Option JValue :=
  if jsNullishO a then b else a

/-- `a || b` on possibly-`undefined` values. -/
def jsOr (a b : Option JValue) : Option JValue :=
  if jsTruthyO a then a else b

/-- String conversion of a value, as in template literals, restricted to the
primitive values the message schema admits (structured values render as in
JavaScript for the empty cases). -/
def jsDisplay (v : JValue) : String :=
  match v with
  | .null => "null"
  | .bool b => if b then "true" else "false"
  | .num q => if q.den = 1 then toString q.num else toString q
  | .str s => s
  | .arr [] => ""
  | .arr _ => "[array]"
  | .obj _ => "[object Object]"

/-- String conversion of a possibly-`undefined` value (`undefined` renders
as in template literals). -/
def jsDisplayO (v : Option JValue) : String :=
  match v with
  | none => "undefined"
  | some w => jsDisplay w

/-- `Number(v)` coercion on the value kinds the message schema admits;
`none` models `NaN`. -/
def jsToNumber (v : JValue) : Option ℚ :=
  match v with
  | .null => some 0
  | .bool b => some (if b then 1 else 0)
  | .num q => some q
  | .str _ => none
  | .arr _ => none
  | .obj _ => none

end Figure

namespace Figure.Json

/-- JSON whitespace. -/
def isWs (c : Char) : Bool :=
  c = ' ' ∨ c = '\n' ∨ c = '\t' ∨ c = '\r'

/-- Drop leading JSON whitespace. -/
def skipWs : List Char → List Char
  | [] => []
  | c :: cs => if isWs c then skipWs cs else c :: cs

/-- Decode the body of a JSON string literal (after the opening quote),
returning the content and the input after the closing quote. -/
def decStr : List Char → List Char → Option (String × List Char)
  | acc, '"' :: rest => some (String.mk acc.reverse, rest)
  | acc, '\\' :: e :: rest =>
    match e with
    | '"' => decStr ('"' :: acc) rest
    | '\\' => decStr ('\\' :: acc) rest
    | '/' => decStr ('/' :: acc) rest
    | 'n' => decStr ('\n' :: acc) rest
    | 't' => decStr ('\t' :: acc) rest
    | 'r' => decStr ('\r' :: acc) rest
    | _ => none
  | acc, c :: rest => if c = '\\' ∨ c = '"' then none else decStr (c :: acc) rest
  | _, [] => none

/-- Decode a run of decimal digits as a natural number. -/
def decDigits : List Char → Nat → Nat → Option (Nat × Nat × List Char)
  | [], acc, n => if n = 0 then none else some (acc, n, [])
  | c :: cs, acc, n =>
    if c.isDigit then decDigits cs (acc * 10 + (c.toNat - '0'.toNat)) (n + 1)
    else if n = 0 then none else some (acc, n, c :: cs)

/-- Decode a JSON number (integer with optional fraction; exponents are not
produced by the replies in scope). -/
def decNum (cs : List Char) : Option (ℚ × List Char) :=
  let (neg, cs1) := match cs with
    | '-' :: rest => (true, rest)
    | _ => (false, cs)
  match decDigits cs1 0 0 with
  | none => none
  | some (ip, _, cs2) =>
    let (q, cs3) := match cs2 with
      | '.' :: cs2a =>
        match decDigits cs2a 0 0 with
        | some (fp, fn, cs2b) => ((ip : ℚ) + (fp : ℚ) / ((10 : ℚ) ^ fn), cs2b)
        | none => ((ip : ℚ), '.' :: cs2a)
      | _ => ((ip : ℚ), cs2)
    some (if neg then -q else q, cs3)

mutual

/-- Decode one JSON value. -/
def decVal : Nat → List Char → Option (JValue × List Char)
  | 0, _ => none
  | fuel + 1, cs =>
    match skipWs cs with
    | '{' :: rest => decObj fuel (skipWs rest) []
    | '[' :: rest => decArr fuel (skipWs rest) []
    | '"' :: rest => (decStr [] rest).map (fun p => (JValue.str p.1, p.2))
    | 't' :: 'r' :: 'u' :: 'e' :: rest => some (JValue.bool true, rest)
    | 'f' :: 'a' :: 'l' :: 's' :: 'e' :: rest => some (JValue.bool false, rest)
    | 'n' :: 'u' :: 'l' :: 'l' :: rest => some (JValue.null, rest)
    | other => (decNum other).map (fun p => (JValue.num p.1, p.2))

/-- Decode the members of a JSON object (input starts after the opening
brace, whitespace skipped). -/
def decObj : Nat → List Char → List (String × JValue) → Option (JValue × List Char)
  | 0, _, _ => none
  | _ + 1, '}' :: rest, acc => some (JValue.obj acc.reverse, rest)
  | fuel + 1, '"' :: rest, acc =>
    match decStr [] rest with
    | none => none
    | some (k, rest1) =>
      match skipWs rest1 with
      | ':' :: rest2 =>
        match decVal fuel rest2 with
        | none => none
        | some (v, rest3) =>
          match skipWs rest3 with
          | ',' :: rest4 => decObj fuel (skipWs rest4) ((k, v) :: acc)
          | '}' :: rest4 => some (JValue.obj ((k, v) :: acc).reverse, rest4)
          | _ => none
      | _ => none
  | _, _, _ => none

/-- Decode the items of a JSON array (input starts after the opening
bracket, whitespace skipped). -/
def decArr : Nat → List Char → List JValue → Option (JValue × List Char)
  | 0, _, _ => none
  | _ + 1, ']' :: rest, acc => some (JValue.arr acc.reverse, rest)
  | fuel + 1, cs, acc =>
    match decVal fuel cs with
    | none => none
    | some (v, rest) =>
      match skipWs rest with
      | ',' :: rest1 => decArr fuel rest1 (v :: acc)
      | ']' :: rest1 => some (JValue.arr (v :: acc).reverse, rest1)
      | _ => none

end

/-- `JSON.parse`: decode a full string as one JSON value, rejecting
trailing garbage. -/
def jsonParse (s : String) : Option JValue :=
  match decVal (2 * s.length + 4) s.toList with
  | none => none
  | some (v, rest) => if (skipWs rest).isEmpty then some v else none

end Figure.Json

namespace Figure

/-! ## Document model

The live document is a flat array of element nodes in document (preorder)
order: index order is document order, and each node carries a parent
pointer.  Platform-computed data (computed style, bounding rectangle,
`innerText`/`textContent`) is stored on the node. -/

/-- A bounding client rectangle (platform floats modelled as rationals). -/
structure QRect where
  x : ℚ
  y : ℚ
  width : ℚ
  height : ℚ
  deriving DecidableEq

/-- One element node of the document. -/
structure DomNode where
  tag : String
  attrs : List (String × String)
  styleVisibility : String
  styleDisplay : String
  styleOpacity : String
  rect : QRect
  innerText : String
  textContent : String
  parent : Option Nat
  deriving DecidableEq

/-- A document: nodes in document order, the index of `document.body`, and
the page/viewport data read by the perceiver. -/
structure DomDoc where
  nodes : List DomNode
  bodyIdx : Nat
  url : String
  title : String
  viewportW : Int
  viewportH : Int
  scrollX : Int
  scrollY : Int
  deriving DecidableEq

def nodeAt (doc : DomDoc) (i : Nat) : Option DomNode :=
  doc.nodes.get? i

def nodeTag (doc : DomDoc) (i : Nat) : String :=
  ((nodeAt doc i).map (·.tag)).getD ""

/-- `element.getAttribute(k)`: `none` models `null`. -/
def getAttr (doc : DomDoc) (i : Nat) (k : String) : Option String :=
  match nodeAt doc i with
  | none => none
  | some n => (n.attrs.find? (fun p => p.1 = k)).map (·.2)

def parentOf (doc : DomDoc) (i : Nat) : Option Nat :=
  (nodeAt doc i).bind (·.parent)

/-- The element children of node `p`, in document order. -/
def childrenOf (doc : DomDoc) (p : Nat) : List Nat :=
  (List.range doc.nodes.length).filter (fun j => parentOf doc j = some p)

def innerTextOf (doc : DomDoc) (i : Nat) : String :=
  ((nodeAt doc i).map (·.innerText)).getD ""

def textContentOf (doc : DomDoc) (i : Nat) : String :=
  ((nodeAt doc i).map (·.textContent)).getD ""

/-- Truthiness of a `getAttribute` result (`null` and `""` are falsy). -/
def strTruthyO (v : Option String) : Bool :=
  match v with
  | none => false
  | some s => s ≠ ""

/-- `a || b` on `getAttribute` results. -/
def orS (a b : Option String) : Option String :=
  if strTruthyO a then a else b

/-- `document.getElementById`: first node whose `id` attribute equals `v`. -/
def getElementById (doc : DomDoc) (v : String) : Option Nat :=
  (List.range doc.nodes.length).find? (fun i => getAttr doc i "id" = some v)

/-- `s.slice(0, n)` for a nonnegative bound. -/
def jsSliceTo (s : String) (n : Nat) : String :=
  String.mk (s.toList.take n)

/-- `Math.round`: round half toward positive infinity, as JavaScript does. -/
def jsRound (q : ℚ) : Int :=
  ⌊q + 1 / 2⌋

/-! ## content.js -/

def DEFAULT_MAX_ELEMENTS : Int := 120
def DEFAULT_MAX_TEXT : Int := 4000

/-- `normalizeLimit(value, fallback, min, max)` from content.js.  The
`Number(value)` coercion of the raw option is the platform's; its result is
the model input, with `none` standing for a non-finite result (`NaN` or an
infinity), which fails the `Number.isFinite` guard. -/
def normalizeLimit (parsed : Option ℚ) (fallback lo hi : Int) : Int :=
  match parsed with
  | none => fallback
  | some q => min hi (max lo ⌊q⌋)

/-- JavaScript `\s` whitespace (the characters occurring in scope). -/
def isJsWs (c : Char) : Bool :=
  c = ' ' ∨ c = '\n' ∨ c = '\t' ∨ c = '\r' ∨ c = '\x0c' ∨ c = '\x0b'

/-- `String.prototype.trim`: strip leading and trailing whitespace. -/
def jsTrim (s : String) : String :=
  String.mk (((s.toList.dropWhile isJsWs).reverse.dropWhile isJsWs).reverse)

/-- `isVisible(element)` from content.js. -/
def isVisible (doc : DomDoc) (i : Nat) : Bool :=
  match nodeAt doc i with
  | none => false
  | some n =>
    if n.styleVisibility = "hidden" ∨ n.styleDisplay = "none" then false
    else if n.rect.width < 4 ∨ n.rect.height < 4 then false
    else if n.styleOpacity = "0" then false
    else true

/-- `getLabel(element)` from content.js. -/
def getLabel (doc : DomDoc) (i : Nat) : String :=
  let aria := getAttr doc i "aria-label"
  if strTruthyO aria then jsTrim (aria.getD "")
  else
    let labelledBy := getAttr doc i "aria-labelledby"
    let lbText : Option String :=
      if strTruthyO labelledBy then
        match getElementById doc (labelledBy.getD "") with
        | some j => if innerTextOf doc j ≠ "" then some (jsTrim (innerTextOf doc j)) else none
        | none => none
      else none
    match lbText with
    | some t => t
    | none =>
      let ph := getAttr doc i "placeholder"
      if strTruthyO ph then jsTrim (ph.getD "")
      else
        let alt := getAttr doc i "alt"
        if strTruthyO alt then jsTrim (alt.getD "")
        else
          let text := if innerTextOf doc i ≠ "" then innerTextOf doc i else textContentOf doc i
          jsSliceTo (jsTrim text) 160

/-- `escapeAttr(value)` from content.js: escape double quotes. -/
def escapeAttr (s : String) : String :=
  String.mk (s.toList.flatMap (fun c => if c = '"' then ['\\', '"'] else [c]))

/-- `CSS.escape` on the identifiers in scope: characters outside
`[A-Za-z0-9_-]` get a backslash escape. -/
def cssEscape (s : String) : String :=
  String.mk (s.toList.flatMap (fun c =>
    if c.isAlphanum ∨ c = '-' ∨ c = '_' then [c] else ['\\', c]))

/-- The structural-path segments built by the trailing loop of
`getSelector`, walking parents up to (excluding) `document.body`. -/
def selectorPathSegs (doc : DomDoc) : Nat → Nat → List String → List String
  | 0, _, acc => acc
  | fuel + 1, i, acc =>
    if i = doc.bodyIdx then acc
    else
      match nodeAt doc i with
      | none => acc
      | some node =>
        let sameTag :=
          match node.parent with
          | some p => (childrenOf doc p).filter (fun j => nodeTag doc j = node.tag)
          | none => []
        let seg :=
          if sameTag.length > 1 then
            node.tag ++ ":nth-of-type(" ++ toString (sameTag.indexOf i + 1) ++ ")"
          else node.tag
        match node.parent with
        | some p => selectorPathSegs doc fuel p (seg :: acc)
        | none => seg :: acc

/-- `getSelector(element)` from content.js. -/
def getSelector (doc : DomDoc) (i : Nat) : String :=
  let idA := getAttr doc i "id"
  if strTruthyO idA then "#" ++ cssEscape (idA.getD "")
  else
    let testId := orS (getAttr doc i "data-testid") (orS (getAttr doc i "data-test") (getAttr doc i "data-qa"))
    if strTruthyO testId then "[data-testid=\"" ++ escapeAttr (testId.getD "") ++ "\"]"
    else
      let nameA := getAttr doc i "name"
      if strTruthyO nameA then nodeTag doc i ++ "[name=\"" ++ escapeAttr (nameA.getD "") ++ "\"]"
      else
        let aria := getAttr doc i "aria-label"
        if strTruthyO aria then nodeTag doc i ++ "[aria-label=\"" ++ escapeAttr (aria.getD "") ++ "\"]"
        else String.intercalate " > " (selectorPathSegs doc (doc.nodes.length + 1) i [])

/-! ### CSS selector semantics

`document.querySelector` is a platform function; it is modelled for the
selector grammar the extension emits and sends: `#id`, `[attr="value"]`,
`tag[attr="value"]`, and child chains of `tag` with optional
`:nth-of-type(n)`, joined by " > ".  A string outside this grammar matches
nothing. -/

/-- One simple selector of the supported grammar. -/
structure SelSeg where
  tag : Option String
  idv : Option String
  attr : Option (String × String)
  nth : Option Nat
  deriving DecidableEq

def isIdentChar (c : Char) : Bool :=
  c.isAlphanum ∨ c = '-' ∨ c = '_'

/-- Read an identifier, undoing backslash escapes. -/
def parseEscIdent : List Char → List Char → String × List Char
  | acc, '\\' :: c :: rest => parseEscIdent (c :: acc) rest
  | acc, c :: rest =>
    if isIdentChar c then parseEscIdent (c :: acc) rest
    else (String.mk acc.reverse, c :: rest)
  | acc, [] => (String.mk acc.reverse, [])

/-- Read a double-quoted attribute value, undoing backslash escapes;
consumes the closing quote. -/
def parseAttrVal : List Char → List Char → Option (String × List Char)
  | acc, '\\' :: c :: rest => parseAttrVal (c :: acc) rest
  | acc, '"' :: rest => some (String.mk acc.reverse, rest)
  | acc, c :: rest => parseAttrVal (c :: acc) rest
  | _, [] => none

/-- Read `name="value"]` (after the opening bracket). -/
def parseAttrSel (cs : List Char) : Option ((String × String) × List Char) :=
  let nm := cs.takeWhile (fun c => c ≠ '=' ∧ c ≠ ']' ∧ c ≠ '"')
  match cs.drop nm.length with
  | '=' :: '"' :: rest =>
    match parseAttrVal [] rest with
    | some (v, ']' :: rest2) => some ((String.mk nm, v), rest2)
    | _ => none
  | _ => none

def nthMark : List Char := (":nth-of-type(").toList

/-- Parse one simple selector (one chain segment). -/
def parseSeg (cs : List Char) : Option SelSeg :=
  match cs with
  | '#' :: rest =>
    let (idv, rest1) := parseEscIdent [] rest
    if rest1.isEmpty ∧ idv ≠ "" then some ⟨none, some idv, none, none⟩ else none
  | _ =>
    let tagChars := cs.takeWhile (fun c => c.isAlphanum)
    let rest0 := cs.drop tagChars.length
    let tag : Option String := if tagChars.isEmpty then none else some (String.mk tagChars)
    match rest0 with
    | [] => if tagChars.isEmpty then none else some ⟨tag, none, none, none⟩
    | '[' :: rest1 =>
      match parseAttrSel rest1 with
      | some (kv, rest2) => if rest2.isEmpty then some ⟨tag, none, some kv, none⟩ else none
      | none => none
    | _ =>
      if nthMark.isPrefixOf rest0 then
        match Json.decDigits (rest0.drop nthMark.length) 0 0 with
        | some (n, _, ')' :: rest2) =>
          if rest2.isEmpty ∧ ¬ tagChars.isEmpty then some ⟨tag, none, none, some n⟩ else none
        | _ => none
      else none

/-- Split a selector string on the emitted child combinator `" > "`. -/
def splitChild : List Char → List Char → List (List Char)
  | acc, ' ' :: '>' :: ' ' :: rest => acc.reverse :: splitChild [] rest
  | acc, c :: rest => splitChild (c :: acc) rest
  | acc, [] => [acc.reverse]

/-- Parse a selector string of the supported grammar into chain segments. -/
def cssParse (s : String) : Option (List SelSeg) :=
  let parts := (splitChild [] s.toList).map parseSeg
  if parts.all (·.isSome) ∧ ¬ parts.isEmpty then some (parts.map (·.getD ⟨none, none, none, none⟩))
  else none

/-- 1-based position of `i` among its same-tag siblings (`:nth-of-type`). -/
def nthOfType (doc : DomDoc) (i : Nat) : Nat :=
  match parentOf doc i with
  | some p => ((childrenOf doc p).filter (fun j => nodeTag doc j = nodeTag doc i)).indexOf i + 1
  | none => 1

/-- Whether node `i` matches one simple selector. -/
def matchesSeg (doc : DomDoc) (i : Nat) (seg : SelSeg) : Bool :=
  (match seg.tag with | none => true | some t => decide (nodeTag doc i = t)) &&
  (match seg.idv with | none => true | some v => decide (getAttr doc i "id" = some v)) &&
  (match seg.attr with | none => true | some kv => decide (getAttr doc i kv.1 = some kv.2)) &&
  (match seg.nth with | none => true | some n => decide (nthOfType doc i = n))

/-- Whether node `i` matches a child chain given bottom-up (last segment
first). -/
def chainMatches (doc : DomDoc) : Nat → Nat → List SelSeg → Bool
  | _, _, [] => true
  | 0, _, _ => false
  | fuel + 1, i, seg :: above =>
    matchesSeg doc i seg &&
      (match above with
       | [] => true
       | _ =>
         match parentOf doc i with
         | some p => chainMatches doc fuel p above
         | none => false)

/-- `document.querySelector(s)`: the first node in document order matching
the selector. -/
def querySelector (doc : DomDoc) (s : String) : Option Nat :=
  match cssParse s with
  | none => none
  | some segs =>
    (List.range doc.nodes.length).find?
      (fun i => chainMatches doc (doc.nodes.length + 1) i segs.reverse)

/-- Whether node `i` matches the interactive-candidate selector
`"a, button, input, textarea, select, [role=button], [contenteditable=true]"`. -/
def isCandidate (doc : DomDoc) (i : Nat) : Bool :=
  (nodeAt doc i).isSome &&
    (nodeTag doc i = "a" ∨ nodeTag doc i = "button" ∨ nodeTag doc i = "input" ∨
     nodeTag doc i = "textarea" ∨ nodeTag doc i = "select" ∨
     getAttr doc i "role" = some "button" ∨ getAttr doc i "contenteditable" = some "true")

/-- The candidate elements of the document, in document order. -/
def candidatesOf (doc : DomDoc) : List Nat :=
  (List.range doc.nodes.length).filter (isCandidate doc)

/-- The integer-rounded rect of a descriptor. -/
structure IRect where
  x : Int
  y : Int
  width : Int
  height : Int
  deriving DecidableEq

/-- One entry of `PerceivedState.elements` as built by `collectPageState`. -/
structure ElementDesc where
  tag : String
  type : Option String
  label : String
  selector : String
  rect : IRect
  deriving DecidableEq

/-- The descriptor pushed for a visible candidate. -/
def descOf (doc : DomDoc) (i : Nat) : ElementDesc :=
  let r := ((nodeAt doc i).map (·.rect)).getD ⟨0, 0, 0, 0⟩
  { tag := nodeTag doc i
    type := getAttr doc i "type"
    label := getLabel doc i
    selector := getSelector doc i
    rect := ⟨jsRound r.x, jsRound r.y, jsRound r.width, jsRound r.height⟩ }

/-- The collection loop of `collectPageState`: push visible candidates,
stopping once the element cap is reached. -/
def collectElems (doc : DomDoc) (maxE : Int) : List Nat → List ElementDesc → List ElementDesc
  | [], acc => acc
  | i :: rest, acc =>
    if isVisible doc i then
      let acc1 := acc ++ [descOf doc i]
      if (acc1.length : Int) ≥ maxE then acc1 else collectElems doc maxE rest acc1
    else collectElems doc maxE rest acc

/-- Strict comparator order of the final sort: `(rect.y, rect.x)` lex. -/
def descLt (a b : ElementDesc) : Bool :=
  a.rect.y < b.rect.y ∨ (a.rect.y = b.rect.y ∧ a.rect.x < b.rect.x)

def insertDesc (a : ElementDesc) : List ElementDesc → List ElementDesc
  | [] => [a]
  | b :: t => if descLt a b then a :: b :: t else b :: insertDesc a t

/-- The stable sort `elements.sort((a,b) => (a.rect.y - b.rect.y) || (a.rect.x - b.rect.x))`. -/
def sortElems (l : List ElementDesc) : List ElementDesc :=
  l.foldl (fun acc a => insertDesc a acc) []

/-- `replace(/\s+/g, " ")`: collapse whitespace runs to single spaces. -/
def collapseWs : Bool → List Char → List Char
  | _, [] => []
  | prevWs, c :: rest =>
    if isJsWs c then
      if prevWs then collapseWs true rest
      else ' ' :: collapseWs true rest
    else c :: collapseWs false rest

/-- The perceived page state returned by `COLLECT_STATE`. -/
structure PageState where
  url : String
  title : String
  viewportW : Int
  viewportH : Int
  scrollX : Int
  scrollY : Int
  elements : List ElementDesc
  textSnippet : String
  deriving DecidableEq

/-- `collectPageState(options)` from content.js.  The two option fields are
given as their `Number(·)` coercions (`none` = not finite, which includes a
missing field). -/
def collectPageState (doc : DomDoc) (opts : Option ℚ × Option ℚ) : PageState :=
  let maxElements := normalizeLimit opts.1 DEFAULT_MAX_ELEMENTS 10 500
  let maxText := normalizeLimit opts.2 DEFAULT_MAX_TEXT 0 20000
  let elements := sortElems (collectElems doc maxElements (candidatesOf doc) [])
  let bodyText := innerTextOf doc doc.bodyIdx
  { url := doc.url
    title := doc.title
    viewportW := doc.viewportW
    viewportH := doc.viewportH
    scrollX := doc.scrollX
    scrollY := doc.scrollY
    elements := elements
    textSnippet :=
      if maxText > 0 then
        jsSliceTo (jsTrim (String.mk (collapseWs false bodyText.toList))) maxText.toNat
      else "" }

/-! ### Action execution -/

/-- The `{ok, result|error}` reply of `performAction`. -/
inductive ActionRes where
  | pass (result : String)
  | fail (error : String)
  deriving DecidableEq

/-- The DOM mutation performed by `performAction` (recorded rather than
applied, so the acting document stays explicit). -/
inductive Effect where
  | none
  | waited (ms : Option ℚ)
  | scrolled (top : Option ℚ)
  | clicked (el : Nat)
  | typed (el : Nat) (value : String)
  | keyed (el : Nat) (key : String)
  deriving DecidableEq

/-- `=== "s"` comparison of a possibly-`undefined` value with a string
literal. -/
def jsStrEqO (v : Option JValue) (s : String) : Bool :=
  match v with
  | some (.str t) => t = s
  | _ => false

/-- Substring test (`String.prototype.includes`). -/
def listStartsWith : List Char → List Char → Bool
  | [], _ => true
  | _ :: _, [] => false
  | a :: as, b :: bs => a = b && listStartsWith as bs

def listContainsSub (n : List Char) : List Char → Bool
  | [] => n.isEmpty
  | c :: rest => listStartsWith n (c :: rest) || listContainsSub n rest

def strContains (hay needle : String) : Bool :=
  listContainsSub needle.toList hay.toList

/-- The candidate scan of `resolveTarget`'s text branch: first candidate
whose lowercased label is nonempty and contains the needle. -/
def labelScan (doc : DomDoc) (needle : String) : List Nat → Option Nat
  | [] => Option.none
  | i :: rest =>
    let label := (getLabel doc i).toLower
    if label ≠ "" ∧ strContains label needle then some i
    else labelScan doc needle rest

/-- `resolveTarget(action)` from content.js. -/
def resolveTarget (doc : DomDoc) (action : JValue) : Option Nat :=
  let bySel : Option Nat :=
    if jsTruthyO (jget action "selector") then
      querySelector doc (jsDisplayO (jget action "selector"))
    else Option.none
  match bySel with
  | some el => some el
  | none =>
    if jsTruthyO (jget action "text") then
      labelScan doc ((jsDisplayO (jget action "text")).toLower) (candidatesOf doc)
    else Option.none

/-- Display of an `Option ℚ` number in a template literal (`none` = `NaN`). -/
def qDisp (o : Option ℚ) : String :=
  match o with
  | none => "NaN"
  | some q => if q.den = 1 then toString q.num else toString q

/-- `performAction(action)` from content.js. -/
def performAction (doc : DomDoc) (action : JValue) : ActionRes × Effect :=
  let typeO := jget action "type"
  if ¬ jsTruthyO typeO then (.fail "Missing action type", .none)
  else if jsStrEqO typeO "wait" then
    let msV := jsOr (jget action "ms") (jsOr (jget action "duration") (some (.num 500)))
    let ms := jsToNumber (msV.getD .null)
    (.pass ("waited " ++ qDisp ms ++ "ms"), .waited ms)
  else if jsStrEqO typeO "scroll" then
    let amtV := jsOr (jget action "amount")
      (some (.num ((jsRound ((doc.viewportH : ℚ) * (7 / 10 : ℚ)) : ℤ) : ℚ)))
    let amt := jsToNumber (amtV.getD .null)
    let dirUp := jsStrEqO (jget action "direction") "up"
    (.pass ("scrolled " ++ if dirUp then "up" else "down"),
     .scrolled (Option.map (fun q => q * (if dirUp then -1 else 1)) amt))
  else
    match resolveTarget doc action with
    | none => (.fail "Target not found", .none)
    | some el =>
      if jsStrEqO typeO "click" then (.pass "clicked", .clicked el)
      else if jsStrEqO typeO "type" then
        let v := jsCoalesce (jget action "value") (jsCoalesce (jget action "text") (some (.str "")))
        (.pass "typed", .typed el (jsDisplayO v))
      else if jsStrEqO typeO "key" then
        let k := jsOr (jget action "key") (jsOr (jget action "value") (some (.str "Enter")))
        (.pass ("key " ++ jsDisplayO k), .keyed el (jsDisplayO k))
      else (.fail ("Unsupported action: " ++ jsDisplayO typeO), .none)

end Figure

namespace Figure

/-! ## Background service worker (agent loop)

Platform interactions (settings lookup, script injection, the two message
round-trips, the model call, the clock, and asynchronous stop requests)
are an explicit environment.  The stop flag is set at most once per run,
so it is modelled by the index of the cooperative poll at which it first
reads true (`stopTime`); polls are counted in program order.  Timestamp
prefixes of log lines come from the ambient clock and are omitted. -/

/-- The module-level `runState` object. -/
structure RunState where
  running : Bool
  stopRequested : Bool
  tabId : Option Nat
  logs : List String
  startedAt : Option Nat
  stoppedAt : Option Nat
  deriving DecidableEq

/-- The resolved settings (`getSettings` output; the settings provider is
an external collaborator). -/
structure Settings where
  apiKey : String
  model : String
  maxSteps : Nat
  stepDelayMs : Nat
  fastMode : Bool
  deriving DecidableEq

/-- One observable event of a run: a log line (also appended to
`runState.logs`), a status event, or one of the platform calls the loop
issues. -/
inductive Event where
  | log (line : String)
  | statusEv (running : Bool) (startedAt stoppedAt : Option Nat)
  | collectCall (step : Nat) (maxElements maxText : Int)
  | shotTry (step : Nat)
  | modelCall (step : Nat)
  | dispatched (step idx : Nat) (action : JValue)

/-- The environment of one `runAgent` invocation. -/
structure Env where
  settings : Settings
  startTime : Nat
  endTime : Nat
  injectOk : Bool
  injectErr : String
  collect : Nat → Except String PageState
  shot : Nat → Except String (Option String)
  modelReply : Nat → Except String JValue
  dispatch : Nat → Nat → JValue → Except String ActionRes
  stopTime : Option Nat

/-- Value of `runState.stopRequested` at the `c`-th cooperative poll. -/
def stopFlag (env : Env) (c : Nat) : Bool :=
  match env.stopTime with
  | some t => decide (t ≤ c)
  | none => false

/-- The log lines carried by a trace. -/
def logsOf (evs : List Event) : List String :=
  evs.filterMap (fun e => match e with | .log l => some l | _ => none)

/-- `extractResponseText(response)` from the background worker. -/
def extractResponseText (resp : JValue) : String :=
  let parts : List JValue :=
    match jget resp "candidates" with
    | some (.arr (c0 :: _)) =>
      match jget c0 "content" with
      | some content =>
        match jget content "parts" with
        | some (.arr l) => l
        | _ => []
      | none => []
    | _ => []
  String.join (parts.map (fun p =>
    if jsTruthyO (jget p "text") then jsDisplayO (jget p "text") else ""))

/-- The (engine-specific) message of a `JSON.parse` syntax error. -/
def jsonParseErrMsg : String := "Unexpected token in JSON"

/-- Index of the last occurrence of `c`. -/
def lastIdxOf (cs : List Char) (c : Char) : Option Nat :=
  match cs.reverse.findIdx? (· = c) with
  | some k => some (cs.length - 1 - k)
  | none => none

/-- `parseAgentResponse(response)` from the background worker: join the
reply parts, `JSON.parse` them, falling back to the substring between the
first brace and the last closing brace. -/
def parseAgentResponse (resp : JValue) : Except String JValue :=
  let raw := extractResponseText resp
  if raw = "" then .error "Empty response from model"
  else
    match Json.jsonParse raw with
    | some v => .ok v
    | none =>
      let cs := raw.toList
      match cs.findIdx? (· = '{'), lastIdxOf cs '}' with
      | some s, some e =>
        match Json.jsonParse (String.mk ((cs.drop s).take (e + 1 - s))) with
        | some v => .ok v
        | none => .error jsonParseErrMsg
      | _, _ => .error jsonParseErrMsg

/-- The perception phase of one step (lines 313–336 of the worker):
state-collection round-trip, concurrent screenshot capture outside fast
mode with failure degraded to "no screenshot". -/
def perceivePhase (env : Env) (opts : Int × Int) (step : Nat) :
    Except String (PageState × Option String) × List Event :=
  let evHead := [Event.log ("Collecting state (step " ++ toString step ++ "/" ++
                  toString env.settings.maxSteps ++ ")..."),
                 Event.collectCall step opts.1 opts.2]
  let shotPart : Option String × List Event :=
    if env.settings.fastMode then (Option.none, [])
    else
      match env.shot step with
      | .ok v => (v, [Event.shotTry step])
      | .error m => (Option.none, [Event.shotTry step, Event.log ("Screenshot failed: " ++ m)])
  match env.collect step with
  | .ok ps => (.ok (ps, shotPart.1), evHead ++ shotPart.2)
  | .error m => (.error m, evHead ++ shotPart.2)

/-- The per-decision action loop (lines 385–403): poll the stop flag before
each action, log, dispatch, log the outcome.  Returns the events and the
next poll index. -/
def actionsLoop (env : Env) (step : Nat) : List JValue → Nat → Nat → List Event × Nat
  | [], _, c => ([], c)
  | a :: rest, idx, c =>
    if stopFlag env c then ([], c + 1)
    else
      let head := [Event.log ("Action: " ++ jsDisplayO (jget a "type")),
                   Event.dispatched step idx a]
      let resEvs :=
        match env.dispatch step idx a with
        | .ok (.pass r) => [Event.log ("Result: " ++ r)]
        | .ok (.fail e) => [Event.log ("Action failed: " ++ (if e = "" then "unknown error" else e))]
        | .error m => [Event.log ("Action error: " ++ m)]
      let tail := actionsLoop env step rest (idx + 1) (c + 1)
      (head ++ resEvs ++ tail.1, tail.2)

/-- `agentResponse.final || "Task completed."`. -/
def doneMsg (ar : JValue) : String :=
  if jsTruthyO (jget ar "final") then jsDisplayO (jget ar "final") else "Task completed."

/-- The step loop of `runAgent` (lines 310–404), by remaining steps;
`step` is the 1-based step counter and `c` the next poll index. -/
def agentLoop (env : Env) (opts : Int × Int) : Nat → Nat → Nat → List Event
  | 0, _, _ => []
  | rem + 1, step, c =>
    if stopFlag env c then []
    else
      let pp := perceivePhase env opts step
      match pp.1 with
      | .error m => pp.2 ++ [Event.log ("State collection failed: " ++ m)]
      | .ok _ =>
        match env.modelReply step with
        | .error m => pp.2 ++ [Event.modelCall step, Event.log m]
        | .ok resp =>
          match parseAgentResponse resp with
          | .error m => pp.2 ++ [Event.modelCall step,
                                 Event.log ("Failed to parse model JSON: " ++ m)]
          | .ok ar =>
            let planEvs :=
              if jsTruthy (jget ar "plan" |>.getD .null) then
                [Event.log ("Plan: " ++ jsDisplayO (jget ar "plan"))]
              else []
            if jsTruthyO (jget ar "done") then
              pp.2 ++ [Event.modelCall step] ++ planEvs ++
                [Event.log ("Done: " ++ doneMsg ar)]
            else
              let actions := match jget ar "actions" with | some (.arr l) => l | _ => []
              if actions.isEmpty then
                pp.2 ++ [Event.modelCall step] ++ planEvs ++
                  [Event.log "No actions returned. Stopping."]
              else
                let al := actionsLoop env step actions 0 (c + 1)
                pp.2 ++ [Event.modelCall step] ++ planEvs ++ al.1 ++
                  agentLoop env opts rem (step + 1) al.2

def alreadyRunningMsg : String := "Agent already running."
def missingKeyMsg : String := "Missing API key. Add it in the popup or generate config.js."
def agentStoppedMsg : String := "Agent stopped."

/-- `runAgent(tabId, instruction)` from the background worker, returning
the final `runState` and the ordered event trace of the call. -/
def runAgent (env : Env) (st0 : RunState) (tabId : Nat) : RunState × List Event :=
  if st0.running then
    ({ st0 with logs := st0.logs ++ [alreadyRunningMsg] }, [.log alreadyRunningMsg])
  else if env.settings.apiKey = "" then
    ({ st0 with logs := st0.logs ++ [missingKeyMsg] }, [.log missingKeyMsg])
  else
    let evsHead := [Event.statusEv true (some env.startTime) Option.none,
                    Event.log "Injecting content script..."]
    if ¬ env.injectOk then
      let evs := evsHead ++ [Event.log ("Failed to inject content script: " ++ env.injectErr)]
      ({ running := false, stopRequested := false, tabId := some tabId,
         logs := st0.logs ++ logsOf evs, startedAt := some env.startTime,
         stoppedAt := Option.none }, evs)
    else
      let opts : Int × Int := if env.settings.fastMode then (60, 0) else (120, 4000)
      let loopEvs := agentLoop env opts env.settings.maxSteps 1 0
      let evs := evsHead ++ loopEvs ++
        [Event.statusEv false (some env.startTime) (some env.endTime),
         Event.log agentStoppedMsg]
      ({ running := false, stopRequested := false, tabId := some tabId,
         logs := st0.logs ++ logsOf evs, startedAt := some env.startTime,
         stoppedAt := some env.endTime }, evs)

/-! ### Trace projections used by the statements -/

def isStartStatus (e : Event) : Bool :=
  match e with | .statusEv true _ _ => true | _ => false

def isFinalStatus (e : Event) : Bool :=
  match e with | .statusEv false _ _ => true | _ => false

def isCollectCall (e : Event) : Bool :=
  match e with | .collectCall _ _ _ => true | _ => false

def isShotTry (e : Event) : Bool :=
  match e with | .shotTry _ => true | _ => false

def isDispatched (e : Event) : Bool :=
  match e with | .dispatched _ _ _ => true | _ => false

/-- The actions dispatched to the executor, in order. -/
def dispatchedActions (evs : List Event) : List JValue :=
  evs.filterMap (fun e => match e with | .dispatched _ _ a => some a | _ => none)

end Figure

namespace Figure

/-! ## Concrete sample documents and environments -/

/-- A visible block node with the given tag, attributes, parent and text. -/
def sampleNode (tag : String) (attrs : List (String × String)) (parent : Option Nat)
    (txt : String) : DomNode :=
  { tag := tag, attrs := attrs, styleVisibility := "visible", styleDisplay := "block",
    styleOpacity := "1", rect := ⟨0, 0, 100, 20⟩, innerText := txt, textContent := txt,
    parent := parent }

/-- A page whose only candidate is a button carrying a `data-test`
attribute (and no id / data-testid / data-qa / name / aria-label). -/
def docA : DomDoc :=
  { nodes := [sampleNode "body" [] Option.none "",
              sampleNode "button" [("data-test", "x")] (some 0) "Click me"],
    bodyIdx := 0, url := "https://a.example/", title := "A", viewportW := 800,
    viewportH := 600, scrollX := 0, scrollY := 0 }

/-- A page with an input `#box` and a button labelled "Say hello world". -/
def docB : DomDoc :=
  { nodes := [sampleNode "body" [] Option.none "",
              sampleNode "input" [("id", "box")] (some 0) "",
              sampleNode "button" [] (some 0) "Say hello world"],
    bodyIdx := 0, url := "https://b.example/", title := "B", viewportW := 800,
    viewportH := 600, scrollX := 0, scrollY := 0 }

/-- A 161-character string. -/
def longLabel : String := String.mk (List.replicate 161 'a')

/-- A page whose only candidate is a button with a 161-character
`aria-label`. -/
def docC : DomDoc :=
  { nodes := [sampleNode "body" [] Option.none "",
              sampleNode "button" [("aria-label", longLabel)] (some 0) "OK"],
    bodyIdx := 0, url := "https://c.example/", title := "C", viewportW := 800,
    viewportH := 600, scrollX := 0, scrollY := 0 }

/-- The idle initial `runState`. -/
def rsIdle : RunState :=
  { running := false, stopRequested := false, tabId := Option.none, logs := [],
    startedAt := Option.none, stoppedAt := Option.none }

/-- Wrap a reply string the way the Gemini HTTP response carries it. -/
def wrapReply (s : String) : JValue :=
  .obj [("candidates", .arr [.obj [("content", .obj [("parts", .arr [.obj [("text", .str s)]])])]])]

/-- A reply whose single action has the unknown kind `hover`. -/
def rawHover : String :=
  "\x7b\"actions\":[\x7b\"type\":\"hover\",\"selector\":\"#box\"\x7d],\"done\":false\x7d"

def hoverAction : JValue :=
  .obj [("type", .str "hover"), ("selector", .str "#box")]

def hoverDecision : JValue :=
  .obj [("actions", .arr [hoverAction]), ("done", .bool false)]

/-- A reply with three `wait` actions and `done=false`. -/
def rawThreeWaits : String :=
  "\x7b\"actions\":[\x7b\"type\":\"wait\"\x7d,\x7b\"type\":\"wait\"\x7d,\x7b\"type\":\"wait\"\x7d],\"done\":false\x7d"

def waitAction : JValue := .obj [("type", .str "wait")]

def threeWaitsDecision : JValue :=
  .obj [("actions", .arr [waitAction, waitAction, waitAction]), ("done", .bool false)]

/-- Base environment: fast mode, budget 2, perception served from `docB`,
actions executed on `docB`. -/
def envBase : Env :=
  { settings := { apiKey := "k", model := "m", maxSteps := 2, stepDelayMs := 0,
                  fastMode := true }
    startTime := 10, endTime := 20, injectOk := true, injectErr := ""
    collect := fun _ => .ok (collectPageState docB (some 60, some 0))
    shot := fun _ => .ok Option.none
    modelReply := fun _ => .error "Gemini API error (500): x"
    dispatch := fun _ _ a => .ok (performAction docB a).1
    stopTime := Option.none }

/-- Environment of the unknown-action scenario: step 1 replies with the
`hover` decision, step 2 fails at the model call. -/
def envHover : Env :=
  { envBase with
    modelReply := fun s => if s = 1 then .ok (wrapReply rawHover)
                           else .error "Gemini API error (500): x" }

/-- Environment in which content-script injection fails. -/
def envInjectFail : Env :=
  { envBase with injectOk := false, injectErr := "Cannot access a chrome:// URL" }

/-- Environment of the stop-mid-step scenario: three wait actions at step 1,
stop flag first visible at poll 2 (after action 1 was dispatched). -/
def envStop : Env :=
  { envBase with
    modelReply := fun s => if s = 1 then .ok (wrapReply rawThreeWaits)
                           else .error "Gemini API error (500): x"
    dispatch := fun _ idx _ => .ok (.pass ("r" ++ toString idx))
    stopTime := some 2 }

/-- Environment of the step-budget scenario: budget 3, every step replies
with one `wait` action and `done=false`. -/
def rawOneWait : String :=
  "\x7b\"actions\":[\x7b\"type\":\"wait\"\x7d],\"done\":false\x7d"

def oneWaitDecision : JValue :=
  .obj [("actions", .arr [waitAction]), ("done", .bool false)]

def envBudget : Env :=
  { envBase with
    settings := { apiKey := "k", model := "m", maxSteps := 3, stepDelayMs := 0,
                  fastMode := true }
    modelReply := fun _ => .ok (wrapReply rawOneWait) }

/-- The action of the C9 scenario: `type` with an explicit empty `value`
and a non-empty `text`. -/
def typeEmptyValueAction : JValue :=
  .obj [("type", .str "type"), ("selector", .str "#box"), ("value", .str ""),
        ("text", .str "hello")]

/-- `type` action with `text` only. -/
def typeTextAction : JValue :=
  .obj [("type", .str "type"), ("selector", .str "#box"), ("text", .str "hello")]

/-- Whether an event is a collect round-trip carrying the given options. -/
def isCollectCallWith (me mt : Int) (e : Event) : Bool :=
  match e with
  | .collectCall _ a b => decide (a = me) && decide (b = mt)
  | _ => false

end Figure

namespace Figure

/-! ## Theorems for the claims -/

/-- Claim C6: if `start(tabId, instruction)` is invoked while the run state
has `running=true`, the call is a no-op: `startedAt`, `stoppedAt`,
`running` and the target tab are unchanged, no second loop is spawned
(the trace is a single log event — no status event, no collect round-trip),
and exactly one "already running" log line is appended. -/
theorem C6_double_start (env : Env) (st0 : RunState) (tab : Nat)
    (h : st0.running = true) :
    (runAgent env st0 tab).1.startedAt = st0.startedAt ∧
    (runAgent env st0 tab).1.stoppedAt = st0.stoppedAt ∧
    (runAgent env st0 tab).1.running = st0.running ∧
    (runAgent env st0 tab).1.tabId = st0.tabId ∧
    (runAgent env st0 tab).1.logs = st0.logs ++ [alreadyRunningMsg] ∧
    (runAgent env st0 tab).2 = [Event.log alreadyRunningMsg] := by
  simp [runAgent, h]

/-- Witness for C6 at a concrete running state. -/
theorem C6_double_start_witness :
    (runAgent envBase { rsIdle with running := true } 3).1.startedAt =
      ({ rsIdle with running := true } : RunState).startedAt ∧
    (runAgent envBase { rsIdle with running := true } 3).1.stoppedAt =
      ({ rsIdle with running := true } : RunState).stoppedAt ∧
    (runAgent envBase { rsIdle with running := true } 3).1.running =
      ({ rsIdle with running := true } : RunState).running ∧
    (runAgent envBase { rsIdle with running := true } 3).1.tabId =
      ({ rsIdle with running := true } : RunState).tabId ∧
    (runAgent envBase { rsIdle with running := true } 3).1.logs =
      ({ rsIdle with running := true } : RunState).logs ++ [alreadyRunningMsg] ∧
    (runAgent envBase { rsIdle with running := true } 3).2 =
      [Event.log alreadyRunningMsg] :=
  C6_double_start envBase { rsIdle with running := true } 3 rfl

/-- Claim C1 (code divergence): on a run that did start (the `running=true`
status event was emitted) but whose content-script injection failed, the
code clears only `running` and returns early: `stoppedAt` is never stamped,
no final status event is emitted, and no "Agent stopped." line is logged —
contradicting the claim that every loop exit performs the full
finalization. -/
theorem C1_injection_failure_divergence :
    ((runAgent envInjectFail rsIdle 7).2.countP isStartStatus = 1) ∧
    (runAgent envInjectFail rsIdle 7).1.running = false ∧
    (runAgent envInjectFail rsIdle 7).1.stoppedAt = Option.none ∧
    ((runAgent envInjectFail rsIdle 7).2.countP isFinalStatus = 0) ∧
    agentStoppedMsg ∉ (runAgent envInjectFail rsIdle 7).1.logs := by
  refine ⟨rfl, rfl, rfl, rfl, by decide⟩

/-- Claim C3 (code divergence): a collected element whose selector came
from the `data-test` attribute gets the string `[data-testid="x"]`, which
re-queries to nothing on the unchanged document — it cannot resolve the
element it was derived from. -/
theorem C3_data_test_selector_divergence :
    isCandidate docA 1 = true ∧ isVisible docA 1 = true ∧
    (collectPageState docA (some 60, some 0)).elements.map (fun d => d.selector) =
      ["[data-testid=\"x\"]"] ∧
    getSelector docA 1 = "[data-testid=\"x\"]" ∧
    querySelector docA "[data-testid=\"x\"]" = Option.none :=
  ⟨rfl, rfl, rfl, rfl, rfl⟩

/-- Counterexample to claim C4: a collected element whose `aria-label` has
161 characters reports a 161-character label — attribute-derived labels
are not truncated to 160. -/
theorem C4_counterexample :
    ((collectPageState docC (some 60, some 0)).elements.map (fun d => d.label.length) =
      [161]) ∧
    ((collectPageState docC (some 60, some 0)).elements.all
      (fun d => decide (d.label.length ≤ 160))) = false := by
  refine ⟨by decide, by decide⟩

/-- Counterexample to claim C2: a reply whose single action has the unknown
kind `hover` is parsed successfully at the decision-parsing boundary, the
action is dispatched to the executor, no parse-failure line is logged, and
the run continues to step 2 — the run does not end with a parse/validation
failure. -/
theorem C2_counterexample :
    parseAgentResponse (wrapReply rawHover) = Except.ok hoverDecision ∧
    dispatchedActions (runAgent envHover rsIdle 7).2 = [hoverAction] ∧
    logsOf (runAgent envHover rsIdle 7).2 =
      ["Injecting content script...", "Collecting state (step 1/2)...",
       "Action: hover", "Action failed: Unsupported action: hover",
       "Collecting state (step 2/2)...", "Gemini API error (500): x",
       "Agent stopped."] ∧
    ((runAgent envHover rsIdle 7).2.countP
      (fun e => match e with | Event.modelCall s => decide (s = 2) | _ => false) = 1) := by
  refine ⟨rfl, rfl, by decide, rfl⟩

/-- Counterexample to the last part of claim C9: a `type` action carrying
`value: ""` (present) and `text: "hello"` (present) types the empty string
— the empty string is not typed only when both fields are absent. -/
theorem C9_counterexample :
    performAction docB typeEmptyValueAction = (ActionRes.pass "typed", Effect.typed 1 "") ∧
    jget typeEmptyValueAction "value" = some (JValue.str "") ∧
    jget typeEmptyValueAction "text" = some (JValue.str "hello") :=
  ⟨rfl, rfl, rfl⟩

end Figure

namespace Figure

theorem length_mk_list (l : List Char) : (String.mk l).length = l.length := rfl

theorem jsSliceTo_length_le (s : String) (n : Nat) : (jsSliceTo s n).length ≤ n := by
  rw [jsSliceTo, length_mk_list]
  exact (List.length_take n s.toList).le.trans (min_le_left _ _)

/-- Claim C2 (amended): an action kind outside the six known ones passes
the client's decision-parsing boundary unchanged and is dispatched to the
executor, which rejects it per-action with `ok:false` and
`"Unsupported action: <kind>"`; the failure is logged and the run
continues rather than ending. -/
theorem C2_amended_executor_rejects_unknown (doc : DomDoc) (a : JValue) (k : String) (el : Nat)
    (hty : jget a "type" = some (.str k))
    (hk : k ∉ (["click", "type", "scroll", "wait", "key", "finish"] : List String))
    (hne : k ≠ "")
    (hres : resolveTarget doc a = some el) :
    (performAction doc a).1 = ActionRes.fail ("Unsupported action: " ++ k) := by
  simp only [List.mem_cons, List.not_mem_nil, or_false, not_or] at hk
  obtain ⟨hc, ht, hs, hw, hkey, hf⟩ := hk
  simp [performAction, hty, jsTruthyO, jsTruthy, jsStrEqO, hne, hw, hs, hres, hc, ht,
    hkey, jsDisplayO, jsDisplay]

/-- Witness for the amended C2 at the `hover` action on `docB`. -/
theorem C2_amended_witness :
    (performAction docB hoverAction).1 = ActionRes.fail ("Unsupported action: " ++ "hover") :=
  C2_amended_executor_rejects_unknown docB hoverAction "hover" 1 rfl (by decide) (by decide) rfl

/-- Claim C4 (amended): only labels derived from the own-visible-text
fallback are truncated to 160 characters; when no aria-label,
aria-labelledby text, placeholder or alt applies, the label is the trimmed
own text cut to 160 characters, hence at most 160 characters long.
(Attribute-derived labels are trimmed but not truncated and can be longer,
as the counterexample shows.) -/
theorem C4_amended_only_own_text_truncated (doc : DomDoc) (i : Nat)
    (h1 : strTruthyO (getAttr doc i "aria-label") = false)
    (h2 : ∀ s j, getAttr doc i "aria-labelledby" = some s → getElementById doc s = some j →
            innerTextOf doc j = "")
    (h3 : strTruthyO (getAttr doc i "placeholder") = false)
    (h4 : strTruthyO (getAttr doc i "alt") = false) :
    (getLabel doc i).length ≤ 160 := by
  simp only [getLabel, h1, Bool.false_eq_true, if_false]
  have hlb : (if strTruthyO (getAttr doc i "aria-labelledby") = true then
      match getElementById doc ((getAttr doc i "aria-labelledby").getD "") with
      | some j => if innerTextOf doc j ≠ "" then some (jsTrim (innerTextOf doc j)) else none
      | none => none
    else none) = none := by
    rcases hat : getAttr doc i "aria-labelledby" with _ | s
    · simp [strTruthyO]
    · by_cases hsne : s = ""
      · simp [strTruthyO, hsne]
      · rcases hid : getElementById doc s with _ | j
        · simp [strTruthyO, hsne, hid]
        · have hj := h2 s j hat hid
          simp [strTruthyO, hsne, hid, hj]
  rw [hlb]
  simp only [h3, h4, Bool.false_eq_true, if_false]
  exact jsSliceTo_length_le _ 160

/-- Witness for the amended C4 at the attribute-less button of `docB`. -/
theorem C4_amended_witness : (getLabel docB 2).length ≤ 160 :=
  C4_amended_only_own_text_truncated docB 2 rfl
    (fun s j hs _ => by rw [show getAttr docB 2 "aria-labelledby" = Option.none from rfl] at hs; cases hs)
    rfl rfl

/-- Claim C9 (amended): a `type` action types the first non-nullish of
`value` then `text` (the empty string when both are nullish); with `text`
present and `value` nullish the `text` string is typed, and — when no
selector applies — the same string is the label-substring locator.  The
empty string is typed whenever the first non-nullish of `value`/`text` is
the empty string, not only when both fields are absent. -/
theorem C9_amended_typed_value (doc : DomDoc) (a : JValue) (el : Nat)
    (hty : jget a "type" = some (.str "type"))
    (hres : resolveTarget doc a = some el) :
    (∀ t, jsNullishO (jget a "value") = true → jget a "text" = some (.str t) →
        performAction doc a = (ActionRes.pass "typed", Effect.typed el t)) ∧
    (∀ v, jget a "value" = some (.str v) →
        performAction doc a = (ActionRes.pass "typed", Effect.typed el v)) ∧
    (jsNullishO (jget a "value") = true → jsNullishO (jget a "text") = true →
        performAction doc a = (ActionRes.pass "typed", Effect.typed el "")) ∧
    (∀ t, t ≠ "" → jsTruthyO (jget a "selector") = false → jget a "text" = some (.str t) →
        resolveTarget doc a = labelScan doc t.toLower (candidatesOf doc)) := by
  refine ⟨?_, ?_, ?_, ?_⟩
  · intro t hv ht
    have hval : jsCoalesce (jget a "value") (jsCoalesce (jget a "text") (some (.str ""))) =
        some (JValue.str t) := by
      simp only [jsCoalesce, hv, if_true, ht]
      simp [jsNullishO]
    simp [performAction, hty, jsTruthyO, jsTruthy, jsStrEqO, hres, hval, jsDisplayO, jsDisplay]
  · intro v hv
    have hval : jsCoalesce (jget a "value") (jsCoalesce (jget a "text") (some (.str ""))) =
        some (JValue.str v) := by
      simp only [jsCoalesce, hv]
      simp [jsNullishO]
    simp [performAction, hty, jsTruthyO, jsTruthy, jsStrEqO, hres, hval, jsDisplayO, jsDisplay]
  · intro hv ht
    have hval : jsCoalesce (jget a "value") (jsCoalesce (jget a "text") (some (.str ""))) =
        some (JValue.str "") := by
      simp only [jsCoalesce, hv, if_true, ht]
    simp [performAction, hty, jsTruthyO, jsTruthy, jsStrEqO, hres, hval, jsDisplayO, jsDisplay]
  · intro t htne hsel ht
    simp only [resolveTarget, hsel, Bool.false_eq_true, if_false, ht]
    simp [jsTruthyO, jsTruthy, htne, jsDisplayO, jsDisplay]

/-- Witness for the amended C9: `text`-only `type` action types the text. -/
theorem C9_amended_witness :
    performAction docB typeTextAction = (ActionRes.pass "typed", Effect.typed 1 "hello") :=
  (C9_amended_typed_value docB typeTextAction 1 rfl rfl).1 "hello" rfl rfl

end Figure

namespace Figure

theorem insertDesc_length (a : ElementDesc) (l : List ElementDesc) :
    (insertDesc a l).length = l.length + 1 := by
  induction l with
  | nil => rfl
  | cons b t ih => by_cases h : descLt a b <;> simp [insertDesc, h, ih]

theorem sortElems_length (l : List ElementDesc) : (sortElems l).length = l.length := by
  have h : ∀ (l acc : List ElementDesc),
      (l.foldl (fun acc a => insertDesc a acc) acc).length = acc.length + l.length := by
    intro l
    induction l with
    | nil => intro acc; simp
    | cons a t ih =>
      intro acc
      simp only [List.foldl_cons, ih, insertDesc_length, List.length_cons]
      omega
  simpa [sortElems] using h l []

theorem collectElems_length_le (doc : DomDoc) (maxE : Int) :
    ∀ (l : List Nat) (acc : List ElementDesc), (acc.length : Int) < maxE →
      ((collectElems doc maxE l acc).length : Int) ≤ maxE := by
  intro l
  induction l with
  | nil => intro acc h; simpa [collectElems] using h.le
  | cons i t ih =>
    intro acc h
    have hlen : ((acc ++ [descOf doc i]).length : Int) = (acc.length : Int) + 1 := by
      simp
    by_cases hv : isVisible doc i
    · by_cases hge : ((acc ++ [descOf doc i]).length : Int) ≥ maxE
      · simp only [collectElems, hv, if_true, hge]
        omega
      · simp only [collectElems, hv, if_true, hge, if_false]
        exact ih _ (by omega)
    · simp only [collectElems, hv, Bool.false_eq_true, if_false]
      exact ih acc h

theorem normalizeLimit_bounds (v : Option ℚ) (fb lo hi : Int)
    (h1 : lo ≤ fb) (h2 : fb ≤ hi) (h3 : lo ≤ hi) :
    lo ≤ normalizeLimit v fb lo hi ∧ normalizeLimit v fb lo hi ≤ hi := by
  rcases v with _ | q
  · exact ⟨h1, h2⟩
  · constructor
    · exact le_min h3 (le_max_left _ _)
    · exact min_le_left _ _

/-- Claim C10: `collectPageState` is total over its options: a missing or
non-numeric limit falls back to the defaults 120/4000, a finite numeric
value is floored and clamped into [10,500] resp. [0,20000], and for every
input the returned elements number at most 500 and the text snippet has at
most 20000 characters. -/
theorem C10_collect_total_bounds :
    (normalizeLimit Option.none DEFAULT_MAX_ELEMENTS 10 500 = 120) ∧
    (normalizeLimit Option.none DEFAULT_MAX_TEXT 0 20000 = 4000) ∧
    (∀ q : ℚ, normalizeLimit (some q) DEFAULT_MAX_ELEMENTS 10 500 = min 500 (max 10 ⌊q⌋)) ∧
    (∀ q : ℚ, normalizeLimit (some q) DEFAULT_MAX_TEXT 0 20000 = min 20000 (max 0 ⌊q⌋)) ∧
    (∀ v, 10 ≤ normalizeLimit v DEFAULT_MAX_ELEMENTS 10 500 ∧
          normalizeLimit v DEFAULT_MAX_ELEMENTS 10 500 ≤ 500) ∧
    (∀ v, 0 ≤ normalizeLimit v DEFAULT_MAX_TEXT 0 20000 ∧
          normalizeLimit v DEFAULT_MAX_TEXT 0 20000 ≤ 20000) ∧
    (∀ (doc : DomDoc) (opts : Option ℚ × Option ℚ),
        (collectPageState doc opts).elements.length ≤ 500) ∧
    (∀ (doc : DomDoc) (opts : Option ℚ × Option ℚ),
        (collectPageState doc opts).textSnippet.length ≤ 20000) := by
  refine ⟨rfl, rfl, fun q => rfl, fun q => rfl, ?_, ?_, ?_, ?_⟩
  · intro v
    exact normalizeLimit_bounds v DEFAULT_MAX_ELEMENTS 10 500 (by decide) (by decide) (by decide)
  · intro v
    exact normalizeLimit_bounds v DEFAULT_MAX_TEXT 0 20000 (by decide) (by decide) (by decide)
  · intro doc opts
    obtain ⟨hlo, hhi⟩ :=
      normalizeLimit_bounds opts.1 DEFAULT_MAX_ELEMENTS 10 500 (by decide) (by decide) (by decide)
    have hb := collectElems_length_le doc (normalizeLimit opts.1 DEFAULT_MAX_ELEMENTS 10 500)
      (candidatesOf doc) [] (by simpa using lt_of_lt_of_le (by norm_num) hlo)
    have : ((collectPageState doc opts).elements.length : Int) ≤ 500 := by
      simp only [collectPageState, sortElems_length]
      omega
    exact_mod_cast this
  · intro doc opts
    obtain ⟨hlo, hhi⟩ :=
      normalizeLimit_bounds opts.2 DEFAULT_MAX_TEXT 0 20000 (by decide) (by decide) (by decide)
    simp only [collectPageState]
    by_cases hpos : normalizeLimit opts.2 DEFAULT_MAX_TEXT 0 20000 > 0
    · simp only [hpos, if_true]
      refine (jsSliceTo_length_le _ _).trans ?_
      omega
    · simp only [hpos, if_false]
      simp

end Figure

namespace Figure

theorem stopFlag_none (env : Env) (h : env.stopTime = Option.none) (c : Nat) :
    stopFlag env c = false := by
  simp [stopFlag, h]

theorem perceivePhase_fst_ok (env : Env) (opts : Int × Int) (step : Nat) (ps : PageState)
    (h : env.collect step = .ok ps) :
    ∃ sh, (perceivePhase env opts step).1 = .ok (ps, sh) := by
  simp only [perceivePhase, h]
  exact ⟨_, rfl⟩

theorem perceivePhase_fst_err (env : Env) (opts : Int × Int) (step : Nat) (m : String)
    (h : env.collect step = .error m) :
    (perceivePhase env opts step).1 = .error m := by
  simp only [perceivePhase, h]

theorem perceivePhase_snd (env : Env) (opts : Int × Int) (step : Nat) :
    (perceivePhase env opts step).2 =
      [Event.log ("Collecting state (step " ++ toString step ++ "/" ++
          toString env.settings.maxSteps ++ ")..."),
       Event.collectCall step opts.1 opts.2] ++
      (if env.settings.fastMode then []
       else
         match env.shot step with
         | .ok _ => [Event.shotTry step]
         | .error m => [Event.shotTry step, Event.log ("Screenshot failed: " ++ m)]) := by
  by_cases hf : env.settings.fastMode <;>
    rcases hs : env.shot step with m | v <;>
      rcases hc : env.collect step with m2 | ps <;>
        simp [perceivePhase, hf, hs, hc]

theorem perceivePhase_counts (env : Env) (opts : Int × Int) (step : Nat) :
    ((perceivePhase env opts step).2.countP
      (fun e => isCollectCall e && ! isCollectCallWith opts.1 opts.2 e) = 0) ∧
    ((perceivePhase env opts step).2.countP isCollectCall = 1) ∧
    (env.settings.fastMode = true → (perceivePhase env opts step).2.countP isShotTry = 0) ∧
    (env.settings.fastMode = false → (perceivePhase env opts step).2.countP isShotTry = 1) ∧
    ((perceivePhase env opts step).2.countP isDispatched = 0) := by
  rw [perceivePhase_snd]
  by_cases hf : env.settings.fastMode <;>
    rcases hs : env.shot step with m | v <;>
      simp [hf, List.countP_append, List.countP_cons, isCollectCall, isCollectCallWith,
        isShotTry, isDispatched]

theorem perceivePhase_dispatchedActions (env : Env) (opts : Int × Int) (step : Nat) :
    dispatchedActions (perceivePhase env opts step).2 = [] := by
  rw [perceivePhase_snd]
  by_cases hf : env.settings.fastMode <;>
    rcases hs : env.shot step with m | v <;>
      simp [hf, dispatchedActions]

theorem actionsLoop_countP_zero (env : Env) (step : Nat) (p : Event → Bool)
    (hlog : ∀ s, p (Event.log s) = false)
    (hdisp : ∀ st idx a, p (Event.dispatched st idx a) = false) :
    ∀ (l : List JValue) (idx c : Nat), (actionsLoop env step l idx c).1.countP p = 0 := by
  intro l
  induction l with
  | nil => intro idx c; simp [actionsLoop]
  | cons a rest ih =>
    intro idx c
    by_cases hflag : stopFlag env c = true
    · simp [actionsLoop, hflag]
    · have hflag' : stopFlag env c = false := by
        cases h : stopFlag env c
        · rfl
        · exact absurd h hflag
      rcases hd : env.dispatch step idx a with m | r
      · simp [actionsLoop, hflag', hd, List.countP_append, List.countP_cons, hlog, hdisp, ih]
      · rcases r with res | err <;>
          simp [actionsLoop, hflag', hd, List.countP_append, List.countP_cons, hlog, hdisp, ih]

theorem actionsLoop_none_dispatched (env : Env) (step : Nat)
    (hstop : env.stopTime = Option.none) :
    ∀ (l : List JValue) (idx c : Nat),
      (actionsLoop env step l idx c).1.countP isDispatched = l.length := by
  intro l
  induction l with
  | nil => intro idx c; simp [actionsLoop]
  | cons a rest ih =>
    intro idx c
    rcases hd : env.dispatch step idx a with m | r
    · simp [actionsLoop, stopFlag_none env hstop, hd, List.countP_append, List.countP_cons,
        isDispatched, ih]
    · rcases r with res | err <;>
        simp [actionsLoop, stopFlag_none env hstop, hd, List.countP_append, List.countP_cons,
          isDispatched, ih]

end Figure

namespace Figure

theorem agentLoop_budget (env : Env) (opts : Int × Int)
    (hstop : env.stopTime = Option.none)
    (hcollect : ∀ i, ∃ ps, env.collect i = .ok ps)
    (hdec : ∀ i, ∃ r d a, env.modelReply i = .ok r ∧ parseAgentResponse r = .ok d ∧
        jsTruthyO (jget d "done") = false ∧ jget d "actions" = some (.arr [a])) :
    ∀ rem step c,
      ((agentLoop env opts rem step c).countP isCollectCall = rem) ∧
      ((agentLoop env opts rem step c).countP isDispatched = rem) := by
  intro rem
  induction rem with
  | zero => intro step c; simp [agentLoop]
  | succ n ih =>
    intro step c
    obtain ⟨ps, hps⟩ := hcollect step
    obtain ⟨r, d, a, hr, hd, hdone, hacts⟩ := hdec step
    obtain ⟨sh, hpp1⟩ := perceivePhase_fst_ok env opts step ps hps
    have hpc := perceivePhase_counts env opts step
    simp only [agentLoop, stopFlag_none env hstop, Bool.false_eq_true, if_false, hpp1, hr,
      hd, hdone, hacts]
    obtain ⟨ihC, ihD⟩ := ih (step + 1) ((actionsLoop env step [a] 0 (c + 1)).2)
    have hzc := actionsLoop_countP_zero env step isCollectCall (fun _ => rfl)
      (fun _ _ _ => rfl) [a] 0 (c + 1)
    have hdp := actionsLoop_none_dispatched env step hstop [a] 0 (c + 1)
    cases hp : jsTruthy ((jget d "plan").getD JValue.null) <;>
      simp [hp, List.countP_append, List.countP_cons, isCollectCall, isDispatched,
        hpc.1, hpc.2.1, hpc.2.2.2.2, hzc, hdp, ihC, ihD] <;>
      omega

/-- Claim C5: with budget `maxSteps = N` (N ≥ 1), no stop ever requested,
and every decision succeeding with `done=false` and exactly one action,
the loop performs exactly N perceive round-trips and dispatches exactly N
actions, then stops (final state not running).  Action outcomes are
irrelevant: per-action failures are logged, never fatal. -/
theorem C5_step_budget (env : Env) (st0 : RunState) (tab : Nat) (N : Nat)
    (hrun : st0.running = false)
    (hkey : env.settings.apiKey ≠ "")
    (hinj : env.injectOk = true)
    (hstop : env.stopTime = Option.none)
    (hN : env.settings.maxSteps = N) (hN1 : 1 ≤ N)
    (hcollect : ∀ i, ∃ ps, env.collect i = .ok ps)
    (hdec : ∀ i, ∃ r d a, env.modelReply i = .ok r ∧ parseAgentResponse r = .ok d ∧
        jsTruthyO (jget d "done") = false ∧ jget d "actions" = some (.arr [a])) :
    ((runAgent env st0 tab).2.countP isCollectCall = N) ∧
    ((runAgent env st0 tab).2.countP isDispatched = N) ∧
    (runAgent env st0 tab).1.running = false := by
  obtain ⟨hbC, hbD⟩ := agentLoop_budget env
    (if env.settings.fastMode then ((60 : Int), (0 : Int)) else ((120 : Int), (4000 : Int)))
    hstop hcollect hdec env.settings.maxSteps 1 0
  rw [hN] at hbC hbD
  simp only [runAgent, hrun, Bool.false_eq_true, if_false, hkey, hinj, not_true,
    ite_false, ite_true]
  refine ⟨?_, ?_, ?_⟩
  · simpa [List.countP_append, List.countP_cons, isCollectCall, hN] using hbC
  · simpa [List.countP_append, List.countP_cons, isDispatched, hN] using hbD
  · simp

end Figure

namespace Figure

theorem dispatchedActions_append (l1 l2 : List Event) :
    dispatchedActions (l1 ++ l2) = dispatchedActions l1 ++ dispatchedActions l2 := by
  simp [dispatchedActions]

theorem actionsLoop_stop_take (env : Env) (step T : Nat) (hst : env.stopTime = some T)
    (resOf : Nat → String)
    (hdisp : ∀ idx a, env.dispatch step idx a = .ok (.pass (resOf idx))) :
    ∀ (l : List JValue) (idx c : Nat), c ≤ T → T - c < l.length →
      dispatchedActions (actionsLoop env step l idx c).1 = l.take (T - c) ∧
      (actionsLoop env step l idx c).2 = T + 1 ∧
      ∀ j, j < T - c →
        Event.log ("Result: " ++ resOf (idx + j)) ∈ (actionsLoop env step l idx c).1 := by
  intro l
  induction l with
  | nil =>
    intro idx c hc hlen
    simp at hlen
  | cons a rest ih =>
    intro idx c hc hlen
    by_cases hTc : T ≤ c
    · have hflag : stopFlag env c = true := by simp [stopFlag, hst, hTc]
      have h0 : T - c = 0 := by omega
      have hceq : c = T := by omega
      rw [show actionsLoop env step (a :: rest) idx c = ([], c + 1) from by
        simp [actionsLoop, hflag]]
      refine ⟨by simp [dispatchedActions, h0], by omega, ?_⟩
      intro j hj
      rw [h0] at hj
      exact absurd hj (Nat.not_lt_zero j)
    · have hcT : c < T := lt_of_not_ge hTc
      have hflag : stopFlag env c = false := by
        simp only [stopFlag, hst]
        simp
        omega
      have hstep : actionsLoop env step (a :: rest) idx c =
          ([Event.log ("Action: " ++ jsDisplayO (jget a "type")), Event.dispatched step idx a]
            ++ [Event.log ("Result: " ++ resOf idx)]
            ++ (actionsLoop env step rest (idx + 1) (c + 1)).1,
           (actionsLoop env step rest (idx + 1) (c + 1)).2) := by
        simp [actionsLoop, hflag, hdisp idx a]
      obtain ⟨ih1, ih2, ih3⟩ := ih (idx + 1) (c + 1) (by omega)
        (by simp only [List.length_cons] at hlen; omega)
      have hTcs : T - c = (T - (c + 1)) + 1 := by omega
      rw [hstep]
      refine ⟨?_, by simpa using ih2, ?_⟩
      · rw [hTcs, List.take_succ_cons]
        simp only [dispatchedActions_append, ih1]
        simp [dispatchedActions]
      · intro j hj
        rcases j with _ | j'
        · simp
        · have hj' : j' < T - (c + 1) := by omega
          have hm := ih3 j' hj'
          have harith : idx + (j' + 1) = idx + 1 + j' := by omega
          rw [harith]
          simp only [List.mem_append]
          exact Or.inr hm

end Figure

namespace Figure

theorem agentLoop_stop_scenario (env : Env) (opts : Int × Int) (as : List JValue) (k : Nat)
    (r d : JValue) (ps : PageState) (resOf : Nat → String)
    (hstop : env.stopTime = some (k + 1))
    (hc1 : env.collect 1 = .ok ps)
    (hm1 : env.modelReply 1 = .ok r)
    (hp1 : parseAgentResponse r = .ok d)
    (hdone : jsTruthyO (jget d "done") = false)
    (hacts : jget d "actions" = some (.arr as))
    (hk1 : 1 ≤ k) (hkn : k < as.length)
    (hdisp : ∀ idx a, env.dispatch 1 idx a = .ok (.pass (resOf idx))) :
    dispatchedActions (agentLoop env opts 2 1 0) = as.take k ∧
    Event.log ("Result: " ++ resOf (k - 1)) ∈ agentLoop env opts 2 1 0 := by
  have hflag0 : stopFlag env 0 = false := by
    simp [stopFlag, hstop]
  obtain ⟨sh, hpp1⟩ := perceivePhase_fst_ok env opts 1 ps hc1
  have hasne : as.isEmpty = false := by
    cases as
    · simp at hkn
    · rfl
  obtain ⟨hal1, hal2, hal3⟩ := actionsLoop_stop_take env 1 (k + 1) hstop resOf hdisp as 0 1
    (by omega) (by omega)
  have hTc : k + 1 - 1 = k := by omega
  rw [hTc] at hal1 hal3
  have hfnext : stopFlag env ((actionsLoop env 1 as 0 1).2) = true := by
    rw [hal2]
    simp [stopFlag, hstop]
  simp only [show (2 : Nat) = 1 + 1 from rfl, agentLoop, hflag0, Bool.false_eq_true,
    if_false, hpp1, hm1, hp1, hdone, hacts, hasne, Nat.zero_add, hfnext, if_true,
    List.append_nil]
  constructor
  · simp only [dispatchedActions_append, perceivePhase_dispatchedActions, hal1]
    cases hp : jsTruthy ((jget d "plan").getD JValue.null) <;>
      simp [dispatchedActions]
  · have hm := hal3 (k - 1) (by omega)
    rw [Nat.zero_add] at hm
    simp only [List.mem_append]
    cases hp : jsTruthy ((jget d "plan").getD JValue.null) <;> simp [hm]

/-- Claim C7: when a stop request becomes visible right after action k of
an n-action decision was dispatched (1 ≤ k < n), action k's result is
still logged, actions k+1..n are never dispatched (the dispatched prefix
is exactly the first k actions), and the run transitions to idle. -/
theorem C7_stop_between_actions (env : Env) (st0 : RunState) (tab : Nat)
    (as : List JValue) (k : Nat) (r d : JValue) (ps : PageState) (resOf : Nat → String)
    (hrun : st0.running = false) (hkey : env.settings.apiKey ≠ "")
    (hinj : env.injectOk = true)
    (hstop : env.stopTime = some (k + 1))
    (hsteps : env.settings.maxSteps = 2)
    (hc1 : env.collect 1 = .ok ps)
    (hm1 : env.modelReply 1 = .ok r)
    (hp1 : parseAgentResponse r = .ok d)
    (hdone : jsTruthyO (jget d "done") = false)
    (hacts : jget d "actions" = some (.arr as))
    (hk1 : 1 ≤ k) (hkn : k < as.length)
    (hdisp : ∀ idx a, env.dispatch 1 idx a = .ok (.pass (resOf idx))) :
    dispatchedActions (runAgent env st0 tab).2 = as.take k ∧
    Event.log ("Result: " ++ resOf (k - 1)) ∈ (runAgent env st0 tab).2 ∧
    (runAgent env st0 tab).1.running = false ∧
    (runAgent env st0 tab).1.stoppedAt = some env.endTime := by
  obtain ⟨hda, hmem⟩ := agentLoop_stop_scenario env
    (if env.settings.fastMode then ((60 : Int), (0 : Int)) else ((120 : Int), (4000 : Int)))
    as k r d ps resOf hstop hc1 hm1 hp1 hdone hacts hk1 hkn hdisp
  simp only [runAgent, hrun, Bool.false_eq_true, if_false, hkey, hinj, not_true,
    ite_false, ite_true, hsteps]
  refine ⟨?_, ?_, trivial, trivial⟩
  · simpa [dispatchedActions] using hda
  · simp [hmem]

end Figure

namespace Figure

theorem agentLoop_succ_decomp (env : Env) (opts : Int × Int) (n step c : Nat)
    (h : stopFlag env c = false) :
    ∃ mid c',
      (agentLoop env opts (n + 1) step c = (perceivePhase env opts step).2 ++ mid ∨
       agentLoop env opts (n + 1) step c =
         (perceivePhase env opts step).2 ++ mid ++ agentLoop env opts n (step + 1) c') ∧
      ∀ p : Event → Bool, (∀ s, p (Event.log s) = false) →
        (∀ st, p (Event.modelCall st) = false) →
        (∀ st i a, p (Event.dispatched st i a) = false) →
        mid.countP p = 0 := by
  rcases hps : (perceivePhase env opts step).1 with m | pr
  · refine ⟨[Event.log ("State collection failed: " ++ m)], 0, Or.inl ?_, ?_⟩
    · simp [agentLoop, h, hps]
    · intro p hl hm hd
      simp [List.countP_cons, hl]
  · rcases hmr : env.modelReply step with m | resp
    · refine ⟨[Event.modelCall step, Event.log m], 0, Or.inl ?_, ?_⟩
      · simp [agentLoop, h, hps, hmr]
      · intro p hl hm2 hd
        simp [List.countP_cons, hl, hm2]
    · rcases hpar : parseAgentResponse resp with m | ar
      · refine ⟨[Event.modelCall step, Event.log ("Failed to parse model JSON: " ++ m)], 0,
          Or.inl ?_, ?_⟩
        · simp [agentLoop, h, hps, hmr, hpar]
        · intro p hl hm2 hd
          simp [List.countP_cons, hl, hm2]
      · by_cases hdn : jsTruthyO (jget ar "done") = true
        · refine ⟨[Event.modelCall step] ++
            (if jsTruthy ((jget ar "plan").getD JValue.null) then
              [Event.log ("Plan: " ++ jsDisplayO (jget ar "plan"))] else []) ++
            [Event.log ("Done: " ++ doneMsg ar)], 0, Or.inl ?_, ?_⟩
          · simp [agentLoop, h, hps, hmr, hpar, hdn]
          · intro p hl hm2 hd
            cases hp : jsTruthy ((jget ar "plan").getD JValue.null) <;>
              simp [hp, List.countP_append, List.countP_cons, hl, hm2]
        · have hdn' : jsTruthyO (jget ar "done") = false := by
            cases hh : jsTruthyO (jget ar "done")
            · rfl
            · exact absurd hh hdn
          cases hacts : (match jget ar "actions" with
              | some (.arr l) => l
              | _ => ([] : List JValue)) with
          | nil =>
            refine ⟨[Event.modelCall step] ++
              (if jsTruthy ((jget ar "plan").getD JValue.null) then
                [Event.log ("Plan: " ++ jsDisplayO (jget ar "plan"))] else []) ++
              [Event.log "No actions returned. Stopping."], 0, Or.inl ?_, ?_⟩
            · simp [agentLoop, h, hps, hmr, hpar, hdn', hacts]
            · intro p hl hm2 hd
              cases hp : jsTruthy ((jget ar "plan").getD JValue.null) <;>
                simp [hp, List.countP_append, List.countP_cons, hl, hm2]
          | cons a l =>
            refine ⟨[Event.modelCall step] ++
              (if jsTruthy ((jget ar "plan").getD JValue.null) then
                [Event.log ("Plan: " ++ jsDisplayO (jget ar "plan"))] else []) ++
              (actionsLoop env step (a :: l) 0 (c + 1)).1,
              (actionsLoop env step (a :: l) 0 (c + 1)).2, Or.inr ?_, ?_⟩
            · simp [agentLoop, h, hps, hmr, hpar, hdn', hacts]
            · intro p hl hm2 hd
              have hz := actionsLoop_countP_zero env step p hl hd (a :: l) 0 (c + 1)
              cases hp : jsTruthy ((jget ar "plan").getD JValue.null) <;>
                simp [hp, List.countP_append, List.countP_cons, hl, hm2, hz]

theorem agentLoop_countP_badOpts (env : Env) (opts : Int × Int) :
    ∀ rem step c, (agentLoop env opts rem step c).countP
      (fun e => isCollectCall e && ! isCollectCallWith opts.1 opts.2 e) = 0 := by
  intro rem
  induction rem with
  | zero => intro step c; simp [agentLoop]
  | succ n ih =>
    intro step c
    by_cases h : stopFlag env c = true
    · simp [agentLoop, h]
    · have h' : stopFlag env c = false := by
        cases hh : stopFlag env c
        · rfl
        · exact absurd hh h
      obtain ⟨mid, c', hdec, hmid⟩ := agentLoop_succ_decomp env opts n step c h'
      have hm := hmid (fun e => isCollectCall e && ! isCollectCallWith opts.1 opts.2 e)
        (fun _ => rfl) (fun _ => rfl) (fun _ _ _ => rfl)
      rcases hdec with he | he <;>
        rw [he] <;>
        simp [List.countP_append, hm, ih, (perceivePhase_counts env opts step).1]

theorem agentLoop_countP_shot_fast (env : Env) (opts : Int × Int)
    (hf : env.settings.fastMode = true) :
    ∀ rem step c, (agentLoop env opts rem step c).countP isShotTry = 0 := by
  intro rem
  induction rem with
  | zero => intro step c; simp [agentLoop]
  | succ n ih =>
    intro step c
    by_cases h : stopFlag env c = true
    · simp [agentLoop, h]
    · have h' : stopFlag env c = false := by
        cases hh : stopFlag env c
        · rfl
        · exact absurd hh h
      obtain ⟨mid, c', hdec, hmid⟩ := agentLoop_succ_decomp env opts n step c h'
      have hm := hmid isShotTry (fun _ => rfl) (fun _ => rfl) (fun _ _ _ => rfl)
      rcases hdec with he | he <;>
        rw [he] <;>
        simp [List.countP_append, hm, ih, (perceivePhase_counts env opts step).2.2.1 hf]

theorem agentLoop_shot_eq_collect (env : Env) (opts : Int × Int)
    (hf : env.settings.fastMode = false) :
    ∀ rem step c, (agentLoop env opts rem step c).countP isShotTry =
      (agentLoop env opts rem step c).countP isCollectCall := by
  intro rem
  induction rem with
  | zero => intro step c; simp [agentLoop]
  | succ n ih =>
    intro step c
    by_cases h : stopFlag env c = true
    · simp [agentLoop, h]
    · have h' : stopFlag env c = false := by
        cases hh : stopFlag env c
        · rfl
        · exact absurd hh h
      obtain ⟨mid, c', hdec, hmid⟩ := agentLoop_succ_decomp env opts n step c h'
      have hms := hmid isShotTry (fun _ => rfl) (fun _ => rfl) (fun _ _ _ => rfl)
      have hmc := hmid isCollectCall (fun _ => rfl) (fun _ => rfl) (fun _ _ _ => rfl)
      rcases hdec with he | he <;>
        rw [he] <;>
        simp [List.countP_append, hms, hmc, ih, (perceivePhase_counts env opts step).2.1,
          (perceivePhase_counts env opts step).2.2.2.1 hf]

end Figure

namespace Figure

theorem countP_wrap (p : Event → Bool) (l : List Event) (e1 e2 e3 e4 : Event)
    (h1 : p e1 = false) (h2 : p e2 = false) (h3 : p e3 = false) (h4 : p e4 = false) :
    ([e1, e2] ++ l ++ [e3, e4]).countP p = l.countP p := by
  simp [List.countP_append, List.countP_cons, h1, h2, h3, h4]

/-- Claim C8: in fast mode every collect round-trip carries
`{maxElements:60, maxText:0}` and no screenshot capture is ever attempted;
in normal mode every collect round-trip carries
`{maxElements:120, maxText:4000}` and one capture is attempted per
collect; a capture failure yields a null screenshot plus a log line and
never aborts the perception phase (it still returns the collected state). -/
theorem C8_fast_mode_contract (env : Env) (st0 : RunState) (tab : Nat)
    (hrun : st0.running = false) (hkey : env.settings.apiKey ≠ "")
    (hinj : env.injectOk = true) :
    (env.settings.fastMode = true →
      ((runAgent env st0 tab).2.countP
        (fun e => isCollectCall e && ! isCollectCallWith 60 0 e) = 0) ∧
      ((runAgent env st0 tab).2.countP isShotTry = 0)) ∧
    (env.settings.fastMode = false →
      ((runAgent env st0 tab).2.countP
        (fun e => isCollectCall e && ! isCollectCallWith 120 4000 e) = 0) ∧
      ((runAgent env st0 tab).2.countP isShotTry =
        (runAgent env st0 tab).2.countP isCollectCall)) ∧
    (∀ step ps m, env.settings.fastMode = false → env.collect step = .ok ps →
      env.shot step = .error m →
      (perceivePhase env ((120 : Int), (4000 : Int)) step).1 = Except.ok (ps, Option.none) ∧
      Event.log ("Screenshot failed: " ++ m) ∈
        (perceivePhase env ((120 : Int), (4000 : Int)) step).2 ∧
      Event.shotTry step ∈ (perceivePhase env ((120 : Int), (4000 : Int)) step).2) := by
  refine ⟨?_, ?_, ?_⟩
  · intro hf
    have hb := agentLoop_countP_badOpts env ((60 : Int), (0 : Int)) env.settings.maxSteps 1 0
    have hs := agentLoop_countP_shot_fast env ((60 : Int), (0 : Int)) hf env.settings.maxSteps 1 0
    simp only [runAgent, hrun, Bool.false_eq_true, if_false, hkey, hinj, not_true,
      ite_false, ite_true, hf]
    constructor
    · rw [countP_wrap _ _ _ _ _ _ rfl rfl rfl rfl]
      exact hb
    · rw [countP_wrap _ _ _ _ _ _ rfl rfl rfl rfl]
      exact hs
  · intro hf
    have hb := agentLoop_countP_badOpts env ((120 : Int), (4000 : Int)) env.settings.maxSteps 1 0
    have hs := agentLoop_shot_eq_collect env ((120 : Int), (4000 : Int)) hf env.settings.maxSteps 1 0
    simp only [runAgent, hrun, Bool.false_eq_true, if_false, hkey, hinj, not_true,
      ite_false, ite_true, hf]
    constructor
    · rw [countP_wrap _ _ _ _ _ _ rfl rfl rfl rfl]
      exact hb
    · rw [countP_wrap _ _ _ _ _ _ rfl rfl rfl rfl,
          countP_wrap _ _ _ _ _ _ rfl rfl rfl rfl]
      exact hs
  · intro step ps m hf hcs hsh
    refine ⟨by simp [perceivePhase, hf, hcs, hsh], ?_, ?_⟩ <;>
      · rw [perceivePhase_snd]
        simp [hf, hsh]

/-- Witness for C8 at the fast-mode environment `envBase`. -/
theorem C8_fast_mode_contract_witness :
    ((envBase.settings.fastMode = true →
      ((runAgent envBase rsIdle 7).2.countP
        (fun e => isCollectCall e && ! isCollectCallWith 60 0 e) = 0) ∧
      ((runAgent envBase rsIdle 7).2.countP isShotTry = 0)) ∧
    (envBase.settings.fastMode = false →
      ((runAgent envBase rsIdle 7).2.countP
        (fun e => isCollectCall e && ! isCollectCallWith 120 4000 e) = 0) ∧
      ((runAgent envBase rsIdle 7).2.countP isShotTry =
        (runAgent envBase rsIdle 7).2.countP isCollectCall)) ∧
    (∀ step ps m, envBase.settings.fastMode = false → envBase.collect step = .ok ps →
      envBase.shot step = .error m →
      (perceivePhase envBase ((120 : Int), (4000 : Int)) step).1 = Except.ok (ps, Option.none) ∧
      Event.log ("Screenshot failed: " ++ m) ∈
        (perceivePhase envBase ((120 : Int), (4000 : Int)) step).2 ∧
      Event.shotTry step ∈ (perceivePhase envBase ((120 : Int), (4000 : Int)) step).2)) :=
  C8_fast_mode_contract envBase rsIdle 7 rfl (by decide) rfl

/-- Witness for C5 at `envBudget` (budget 3, one wait action per step). -/
theorem C5_step_budget_witness :
    ((runAgent envBudget rsIdle 7).2.countP isCollectCall = 3) ∧
    ((runAgent envBudget rsIdle 7).2.countP isDispatched = 3) ∧
    (runAgent envBudget rsIdle 7).1.running = false :=
  C5_step_budget envBudget rsIdle 7 3 rfl (by decide) rfl rfl rfl (by decide)
    (fun _ => ⟨collectPageState docB (some 60, some 0), rfl⟩)
    (fun _ => ⟨wrapReply rawOneWait, oneWaitDecision, waitAction, rfl, rfl, rfl, rfl⟩)

/-- Witness for C7 at `envStop` (three wait actions, stop visible after
action 1). -/
theorem C7_stop_between_actions_witness :
    dispatchedActions (runAgent envStop rsIdle 7).2 =
      [waitAction, waitAction, waitAction].take 1 ∧
    Event.log ("Result: " ++ "r" ++ toString 0) ∈ (runAgent envStop rsIdle 7).2 ∧
    (runAgent envStop rsIdle 7).1.running = false ∧
    (runAgent envStop rsIdle 7).1.stoppedAt = some envStop.endTime := by
  have h := C7_stop_between_actions envStop rsIdle 7 [waitAction, waitAction, waitAction] 1
    (wrapReply rawThreeWaits) threeWaitsDecision (collectPageState docB (some 60, some 0))
    (fun idx => "r" ++ toString idx)
    rfl (by decide) rfl rfl rfl rfl rfl rfl rfl rfl (by decide) (by decide)
    (fun idx a => rfl)
  simpa using h

end Figure
